import Mathlib

/-!
Verification of the Multi-Instance Process Supervisor (`manager.py`).

The Python source is embedded shallowly: stateful operations become pure
functions over explicit environment parameters, OS side effects become
explicit traces (lists of actions), and library hash primitives are
parameters of the functions that call them.  Strings are manipulated
through structurally recursive helpers over `List Char`, mirroring the
Python string operations (`in`, `split`, `strip`, `splitlines`,
`isdigit`) used by the source.
-/

namespace MineManage

/-! ### String helpers mirroring the Python operations used by manager.py -/

/-- Whether `pre` is an initial segment of `l` (used to model Python's
substring operator `in`). -/
def leadsWith : List Char → List Char → Bool
  | [], _ => true
  | _ :: _, [] => false
  | p :: ps, x :: xs => p == x && leadsWith ps xs

/-- Whether `needle` occurs as a contiguous sublist of `hay`:
Python's `needle in hay` for a nonempty `needle`. -/
def listContainsSub (hay needle : List Char) : Bool :=
  match hay with
  | [] => leadsWith needle []
  | _ :: xs => leadsWith needle hay || listContainsSub xs needle

/-- Python's substring test `needle in hay` on strings (nonempty needle). -/
def strContains (hay needle : String) : Bool :=
  listContainsSub hay.data needle.data

/-- Python's `str.split(sep)` for a single-character separator. -/
def splitOnChar (c : Char) : List Char → List (List Char)
  | [] => [[]]
  | x :: xs =>
    if x == c then [] :: splitOnChar c xs
    else
      match splitOnChar c xs with
      | [] => [[x]]
      | h :: t => (x :: h) :: t

/-- Python's `str.splitlines` restricted to `\n`-separated text (the only
line separator occurring in the modelled `screen -list` output). -/
def splitLines (s : List Char) : List (List Char) :=
  splitOnChar (Char.ofNat 10) s

/-- Python's `str.strip()`: remove ASCII whitespace from both ends. -/
def pyStrip (s : List Char) : List Char :=
  ((s.dropWhile Char.isWhitespace).reverse.dropWhile Char.isWhitespace).reverse

/-- Python's `str.isdigit()` for ASCII text: nonempty and all digits. -/
def pyIsDigit (s : List Char) : Bool :=
  !s.isEmpty && s.all Char.isDigit

/-- Python's `int(s)` on a string of ASCII digits. -/
def digitsToNat (s : List Char) : Nat :=
  s.foldl (fun acc c => acc * 10 + (c.toNat - 48)) 0

/-! ### C1: Config Store writes (`save_global_config`, `save_instance_config`)

`save_global_config` serializes the record to `CONFIG_FILE + ".tmp"` and then
`os.replace`s it over `CONFIG_FILE`; on `IOError` it reports the failure once
and does not retry.  `save_instance_config` opens the target
`instance.json` path directly and writes the serialization to it — no
temporary file and no rename.  The serialized record is abstracted as an
opaque string (the claims do not depend on the JSON encoding). -/

inductive WriteAction where
  | writeFile (path : String) (content : String)
  | rename (src : String) (dst : String)
  deriving DecidableEq, Repr

/-- Embeds `save_global_config` (manager.py:69-78): the filesystem trace of a
successful save of serialized record `s` to `configFile`. -/
def save_global_config (configFile : String) (s : String) : List WriteAction :=
  [WriteAction.writeFile (configFile ++ ".tmp") s,
   WriteAction.rename (configFile ++ ".tmp") configFile]

/-- Embeds `save_instance_config` (manager.py:291-303): the filesystem trace
of a save of serialized record `s` to the instance config path. -/
def save_instance_config (configPath : String) (s : String) : List WriteAction :=
  [WriteAction.writeFile configPath s]

/-- A trace performs a write-temp-then-atomic-rename replacement of
`target`: it first writes the sibling `target ++ ".tmp"` and then renames
that temporary over `target`, and does nothing else. -/
def isAtomicReplaceOf (target : String) : List WriteAction → Bool
  | [WriteAction.writeFile p _, WriteAction.rename q t] =>
      p == target ++ ".tmp" && q == p && t == target
  | _ => false

/-! ### C10: `send_command` input sanitisation

`send_command` (manager.py:400-412) first checks `is_server_running()`,
then rejects any command containing a control character (code point `< 32`
or `== 127`), and only then injects `cmd + "\n"` into the screen session's
input stream.  Liveness is modelled as an environment flag; the result is
the returned boolean together with the injected payload, if any. -/

/-- Embeds `send_command` (manager.py:400-412).  `running` is the result of
the `is_server_running()` query; the second component is the text injected
into the session's input stream (`none` when nothing is injected). -/
def send_command (running : Bool) (cmd : String) : Bool × Option String :=
  if !running then (false, none)
  else if cmd.data.any (fun c => decide (c.toNat < 32) || c.toNat == 127) then
    (false, none)
  else
    (true, some (cmd ++ "\n"))

/-! ### C2: `get_server_pid` (Session Registry pid resolution)

`get_server_pid` (manager.py:1880-1909) derives the session name
`"minemanage_" + instance`, runs `screen -list`, returns `None` when the
session name does not occur in the output, and otherwise scans the output
lines: the first stripped line containing the session name whose text
before the first `'.'` is all digits yields that integer.  It consults
nothing but the `screen -list` text — in particular it never inspects any
process's working directory. -/

/-- Embeds `get_screen_name` (manager.py:1870-1878) for an explicit
instance name. -/
def get_screen_name (instanceName : String) : String :=
  "minemanage_" ++ instanceName

/-- The line scan of `get_server_pid`: first stripped line containing
`screenName` whose leading dot-separated field is all digits. -/
def firstPidIn (screenName : List Char) : List (List Char) → Option Nat
  | [] => none
  | line :: rest =>
    if listContainsSub (pyStrip line) screenName then
      match splitOnChar (Char.ofNat 46) (pyStrip line) with
      | [] => firstPidIn screenName rest
      | p :: _ =>
        if pyIsDigit p then some (digitsToNat p)
        else firstPidIn screenName rest
    else firstPidIn screenName rest

/-- Embeds `get_server_pid` (manager.py:1880-1909).  `screenOutput` is the
stdout of `screen -list`. -/
def get_server_pid (instanceName : String) (screenOutput : String) : Option Nat :=
  let screenName := get_screen_name instanceName
  if !strContains screenOutput screenName then none
  else firstPidIn screenName.data (splitLines screenOutput.data)

/-- The OS facts visible to a pid-resolution query: the multiplexer's
session listing and each process's current working directory. -/
structure PidEnv where
  screenOutput : String
  cwdOf : Nat → Option String

/-- Modelled from the spec: `resolveProcessId` as §4.2 describes it —
enumerate candidate worker-process ids system-wide by worker binary name
(the candidate list), then accept a candidate only if its working
directory exactly matches the instance's absolute working directory.
This definition follows the spec's words; the source's `get_server_pid`
is compared against it. -/
def resolveProcessIdSpec (candidates : List Nat) (env : PidEnv)
    (instanceDir : String) : Option Nat :=
  candidates.find? (fun pid => env.cwdOf pid == some instanceDir)

/-! ### C3: `cmd_kill` force-kill fallback

After terminating the screen session, `cmd_kill` (manager.py:1250-1273)
waits one second and probes the previously resolved pid with
`os.kill(pid, 0)`; if the probe succeeds (process still alive) it executes
`os.kill(pid, signal.SIGKILL)`.  The module, however, never imports
`signal` (the import list at manager.py:2-23 has no `signal` entry), so
evaluating `signal.SIGKILL` raises `NameError`, which the surrounding
`except OSError` clause does not catch: the fallback crashes before any
signal is sent.  The embedding keeps the name-resolution step explicit. -/

/-- The module names imported at the top of manager.py (lines 2-23);
`signal` is absent. -/
def importedModules : List String :=
  ["argparse", "json", "os", "sys", "subprocess", "urllib.request",
   "urllib.error", "urllib.parse", "pathlib", "shutil", "datetime", "time",
   "hashlib", "getpass", "socket", "struct", "xml.etree.ElementTree",
   "tqdm", "miniupnpc", "readline", "zipfile"]

/-- Python module-level name lookup against the import list. -/
def lookupModule (n : String) : Option Unit :=
  if importedModules.contains n then some () else none

/-- A process-directed signal sent by the kill fallback. -/
inductive Sig where
  | sigkill (pid : Nat)
  deriving DecidableEq, Repr

/-- Outcome of the ensure-process-dead epilogue of `cmd_kill`. -/
inductive KillOutcome where
  /-- Fell through normally; the listed signals were sent. -/
  | ok (sent : List Sig)
  /-- An exception escaped the `except OSError` clause. -/
  | exc (exceptionName : String)
  deriving DecidableEq, Repr

/-- Embeds the epilogue of `cmd_kill` (manager.py:1262-1273): `pid` is the
pid resolved before the session was quit, `stillAlive` is whether
`os.kill(pid, 0)` succeeds after the one-second grace period. -/
def cmd_kill_ensureDead (pid : Option Nat) (stillAlive : Bool) : KillOutcome :=
  match pid with
  | none => KillOutcome.ok []
  | some p =>
    if stillAlive then
      match lookupModule "signal" with
      | none => KillOutcome.exc "NameError"
      | some _ => KillOutcome.ok [Sig.sigkill p]
    else
      KillOutcome.ok []

/-! ### C4: `cmd_instance` action `"delete"`

The delete branch (manager.py:3213-3234) rejects a missing name, rejects
`name == current`, rejects a nonexistent instance directory, asks for
confirmation, and on `"y"` removes the instance directory recursively.
It never queries `is_server_running`. -/

/-- Result of the delete branch of `cmd_instance`. -/
inductive DeleteResult where
  /-- `args.name` was falsy: usage error, nothing removed. -/
  | rejectedUsage
  /-- `name == current`: refused, nothing removed. -/
  | rejectedActive
  /-- no instance directory of that name: refused, nothing removed. -/
  | rejectedMissing
  /-- confirmed: `shutil.rmtree` of the instance directory was invoked. -/
  | deleted
  /-- confirmation declined: nothing removed. -/
  | aborted
  deriving DecidableEq, Repr

/-- Embeds the `"delete"` branch of `cmd_instance` (manager.py:3213-3234).
`current` is `current_instance` from the global config, `instances` the
set of existing instance directories, `confirmYes` whether the user
answered `"y"`. -/
def cmd_instance_delete (current name : String) (instances : List String)
    (confirmYes : Bool) : DeleteResult :=
  if name == "" then DeleteResult.rejectedUsage
  else if name == current then DeleteResult.rejectedActive
  else if !instances.contains name then DeleteResult.rejectedMissing
  else if confirmYes then DeleteResult.deleted
  else DeleteResult.aborted

/-- The per-host state a delete request runs against; `alive` is the
liveness signal (`is_server_running`) the claim refers to — the source's
delete branch never consults it. -/
structure InstanceEnv where
  current : String
  instances : List String
  alive : String → Bool
  confirmYes : Bool

/-- The delete branch run in an `InstanceEnv`. -/
def run_delete (env : InstanceEnv) (name : String) : DeleteResult :=
  cmd_instance_delete env.current name env.instances env.confirmYes

/-! ### C5: `cmd_instance` action `"create"` and the global config it saves

Configuration records are Python dicts of string keys and values; they are
modelled as association lists with Python's insertion-order `dict`
update/overwrite semantics.  The create branch (manager.py:3151-3192)
validates the name, refuses an existing directory, writes a default
instance config, and then auto-initializes by calling `cmd_init` with the
new instance's name; `cmd_init` (manager.py:981-1009) loads the merged
config, sets `server_version`, `server_type` and `current_instance`
(comment: "Set as current"), and persists through `save_config`, whose
global half keeps exactly the `GLOBAL_CONFIG_KEYS` entries. -/

/-- A Python dict of strings, as an insertion-ordered association list. -/
abbrev Dict : Type := List (String × String)

/-- `d[k]` lookup (`dict.get`). -/
def dget (d : Dict) (k : String) : Option String :=
  (List.find? (fun p => p.1 == k) d).map (fun p => p.2)

/-- `d[k] = v`: overwrite in place when the key exists, append otherwise. -/
def dset (d : Dict) (k v : String) : Dict :=
  if List.any d (fun p => p.1 == k) then
    List.map (fun p => if p.1 == k then (k, v) else p) d
  else
    d ++ [(k, v)]

/-- `d.update(e)`: apply every entry of `e` to `d`, in order. -/
def dupdate (d e : Dict) : Dict :=
  List.foldl (fun acc p => dset acc p.1 p.2) d e

/-- `GLOBAL_CONFIG_KEYS` (manager.py:43). -/
def GLOBAL_CONFIG_KEYS : List String :=
  ["java_path", "current_instance", "admin_password_hash", "login_delay"]

/-- Embeds `load_config` (manager.py:353-359): overlay the target
instance's record onto the global record. -/
def load_config (globalCfg instCfg : Dict) : Dict :=
  dupdate globalCfg instCfg

/-- The dict comprehension `{k: cfg[k] for k in keys if k in cfg}`,
iterating the key list in order. -/
def buildHalf (keys : List String) (cfg : Dict) : Dict :=
  List.foldr
    (fun k acc =>
      match dget cfg k with
      | some v => (k, v) :: acc
      | none => acc)
    [] keys

/-- The global half written by `save_config` (manager.py:361-366):
`{k: config[k] for k in GLOBAL_CONFIG_KEYS if k in config}`. -/
def save_config_globalHalf (cfg : Dict) : Dict :=
  buildHalf GLOBAL_CONFIG_KEYS cfg

/-- Embeds the config mutation of `cmd_init` (manager.py:981-1009) for an
explicit target instance, returning the global config it persists.
`argVersion`/`argType` are the (truthy) CLI arguments, `instCfg` the
instance record on disk. -/
def cmd_init_savedGlobal (globalCfg instCfg : Dict) (instanceName : String)
    (argVersion argType : Option String) : Dict :=
  let config := load_config globalCfg instCfg
  let version :=
    match argVersion with
    | some v => v
    | none => (dget config "server_version").getD "1.20.4"
  let serverType :=
    match argType with
    | some t => t
    | none => (dget config "server_type").getD "vanilla"
  let config := dset config "server_version" version
  let config := dset config "server_type" serverType
  let config := dset config "current_instance" instanceName
  save_config_globalHalf config

/-- The default instance record written by the create branch
(manager.py:3173-3178). -/
def default_i_cfg (serverType version : String) : Dict :=
  [("ram_min", "2G"), ("ram_max", "4G"),
   ("server_type", serverType), ("server_version", version)]

/-- Embeds the successful `"create"` branch of `cmd_instance`
(manager.py:3151-3192), returning the global config persisted by the
auto-init step: the default instance record is written first, then
`cmd_init` runs with the new name and explicit version/type. -/
def cmd_instance_create_savedGlobal (globalCfg : Dict)
    (name version serverType : String) : Dict :=
  cmd_init_savedGlobal globalCfg (default_i_cfg serverType version) name
    (some version) (some serverType)

/-! ### C6: `cmd_backup` quiescing and the `finally` block

`cmd_backup` (manager.py:1275-1323) returns early when the world directory
is missing; otherwise, when the instance is running, it sends `save-off`
and `save-all`, archives inside a `try` whose `except Exception` reports
`Backup failed`, and in the `finally` clause sends `save-on` whenever the
instance was running.  The archive step's outcome is abstracted as an
`Except` value (success, or the exception raised mid-archive). -/

/-- Observable events of one `cmd_backup` invocation, in order. -/
inductive BackupEvent where
  | sendCmd (c : String)
  | archiveCreated
  | backupFailed (msg : String)
  deriving DecidableEq, Repr

/-- Embeds the control flow of `cmd_backup` (manager.py:1275-1323).
`worldExists` is the world-directory check, `running` the
`is_server_running()` result, `archiveOutcome` the outcome of the
walk-and-zip block. -/
def cmd_backup_events (worldExists running : Bool)
    (archiveOutcome : Except String Unit) : List BackupEvent :=
  if !worldExists then []
  else
    (if running then [BackupEvent.sendCmd "save-off", BackupEvent.sendCmd "save-all"]
     else []) ++
    (match archiveOutcome with
     | Except.ok _ => [BackupEvent.archiveCreated]
     | Except.error e => [BackupEvent.backupFailed e]) ++
    (if running then [BackupEvent.sendCmd "save-on"] else [])

/-! ### C7: the files `cmd_backup` writes into the archive

The archiving loop (manager.py:1296-1315) walks the instance directory
and, for each walked directory `root`, skips it when any of the substrings
`"backups"`, `"logs"`, `"cache"`, `"libraries"`, `"versions"` occurs in
the `root` string (`if "backups" in root or ...: continue`); the files of
the remaining directories are written under their path relative to the
instance directory.  The directory tree is modelled as the `os.walk`
enumeration: a list of (directory path components relative to the
instance directory, file names in that directory). -/

/-- `os.path.join` over components with the `/` separator. -/
def joinPath : List String → String
  | [] => ""
  | [p] => p
  | p :: ps => p ++ "/" ++ joinPath ps

/-- The substrings whose occurrence in a walked `root` makes
`cmd_backup` skip that directory (manager.py:1308). -/
def backupExcludedNames : List String :=
  ["backups", "logs", "cache", "libraries", "versions"]

/-- The `root`-skipping test of the archiving loop: Python's
`"backups" in root or "logs" in root or ...`. -/
def backupRootSkipped (root : String) : Bool :=
  List.any backupExcludedNames (fun s => strContains root s)

/-- Embeds the archiving loop of `cmd_backup` (manager.py:1304-1315): the
relative paths stored in the archive, given the instance directory path
and its walked tree. -/
def cmd_backup_archiveNames (serverDir : String)
    (tree : List (List String × List String)) : List String :=
  List.flatMap
    (List.filter (fun e => !backupRootSkipped (joinPath (serverDir :: e.1))) tree)
    (fun (e : List String × List String) => List.map (fun f => joinPath (e.1 ++ [f])) e.2)

/-- A file whose directory path (components relative to the instance
directory) lies under one of the excluded subtrees: some component is one
of the excluded directory names.  This is the claim's notion of
exclusion, against which the source's substring test is compared. -/
def underExcludedSubtree (dirComponents : List String) : Bool :=
  List.any dirComponents (fun c => backupExcludedNames.contains c)

/-! ### C8: `cmd_stop` graceful stop with bounded polling

On a running instance, `cmd_stop` (manager.py:1178-1206) injects the
`stop` line into the session's input stream, then loops `for _ in
range(30)`: if `is_server_running` is false it reports stopped and
returns, else sleeps one second; after the loop it reports that the
server did not stop in time, terminating nothing.  Liveness is modelled
as the sequence of `is_server_running` query results: `alive k` is the
k-th query of the invocation (query 0 is the initial running check). -/

/-- Result of one `cmd_stop` invocation. -/
inductive StopResult where
  /-- Initial liveness check failed: nothing sent. -/
  | notRunning
  /-- Liveness query `q` observed the server down within the bound. -/
  | stopped (q : Nat)
  /-- All 30 polls saw the server alive: timeout reported. -/
  | timedOut
  deriving DecidableEq, Repr

/-- Actions `cmd_stop` can take against the session or the worker. -/
inductive StopAction where
  /-- Inject the `stop` line into the session's input stream. -/
  | injectStop
  /-- Forcibly terminate the screen session (never performed). -/
  | forceQuitSession
  /-- Send a termination signal to the worker process (never performed). -/
  | killWorker
  deriving DecidableEq, Repr

/-- The polling loop (`for _ in range(30)`): `q` is the index of the next
liveness query, `fuel` the remaining iterations; returns the query index
that observed the server down, if any. -/
def stopPollLoop (alive : Nat → Bool) (q : Nat) : Nat → Option Nat
  | 0 => none
  | fuel + 1 =>
    if !alive q then some q
    else stopPollLoop alive (q + 1) fuel

/-- Embeds `cmd_stop` (manager.py:1178-1206): the result and the actions
taken, for liveness-query trace `alive`. -/
def cmd_stop (alive : Nat → Bool) : StopResult × List StopAction :=
  if !alive 0 then (StopResult.notRunning, [])
  else
    match stopPollLoop alive 1 30 with
    | some q => (StopResult.stopped q, [StopAction.injectStop])
    | none => (StopResult.timedOut, [StopAction.injectStop])

/-! ### C9: `hash_password` / `verify_password`

`hash_password` (manager.py:194-207) draws a random 16-byte salt and
returns `salt.hex() + "$" + pbkdf2_hmac('sha256', pw, salt, 100000).hex()`.
`verify_password` (manager.py:209-233) splits a stored value containing
`"$"` into salt and hash, recomputes the PBKDF2 hash with the stored salt
and compares; a stored value without `"$"` is legacy: it compares the
SHA-256 hex digest and, on a match, returns the pair `(True, new_hash)`
with `new_hash` a fresh modern hash of the same password.  The two
`hashlib` primitives and `os.urandom` are parameters; bytes are `Nat`s
below 256. -/

/-- Lowercase hex digit of `n < 16` (`'0'..'9'`, `'a'..'f'`). -/
def hexDigit (n : Nat) : Char :=
  if n < 10 then Char.ofNat (48 + n) else Char.ofNat (87 + n)

/-- Python's `bytes.hex()`: two lowercase hex digits per byte. -/
def hexEncode : List Nat → List Char
  | [] => []
  | b :: bs => hexDigit (b / 16) :: hexDigit (b % 16) :: hexEncode bs

/-- Numeric value of a lowercase hex digit. -/
def hexVal (c : Char) : Nat :=
  if 97 ≤ c.toNat then c.toNat - 87 else c.toNat - 48

/-- Python's `bytes.fromhex`: decode pairs of hex digits. -/
def hexDecode : List Char → List Nat
  | c1 :: c2 :: rest => (hexVal c1 * 16 + hexVal c2) :: hexDecode rest
  | _ => []

/-- Embeds `hash_password` (manager.py:194-207); `pbkdf2` is
`hashlib.pbkdf2_hmac('sha256', ·, ·, ·)` and `salt` the 16 bytes drawn
from `os.urandom`. -/
def hash_password (pbkdf2 : List Nat → List Nat → Nat → List Nat)
    (password salt : List Nat) : List Char :=
  hexEncode salt ++ Char.ofNat 36 :: hexEncode (pbkdf2 password salt 100000)

/-- The values `verify_password` returns: `True`, `False`, or the pair
`(True, new_hash)` on a legacy match.  `pyError` records an uncaught
exception (an unpack of `split("$")` into two names failing). -/
inductive VerifyResult where
  | matched
  | noMatch
  | matchedUpgrade (newHash : List Char)
  | pyError
  deriving DecidableEq, Repr

/-- Embeds `verify_password` (manager.py:209-233); `sha256hex` is
`hashlib.sha256(·).hexdigest()` and `freshSalt` the salt `os.urandom`
yields inside the upgrade's `hash_password` call. -/
def verify_password (pbkdf2 : List Nat → List Nat → Nat → List Nat)
    (sha256hex : List Nat → List Char) (freshSalt : List Nat)
    (stored : List Char) (provided : List Nat) : VerifyResult :=
  if stored.contains (Char.ofNat 36) then
    match splitOnChar (Char.ofNat 36) stored with
    | [saltHex, hashHex] =>
      let salt := hexDecode saltHex
      if hexEncode (pbkdf2 provided salt 100000) = hashHex then
        VerifyResult.matched
      else
        VerifyResult.noMatch
    | _ => VerifyResult.pyError
  else
    if sha256hex provided = stored then
      VerifyResult.matchedUpgrade (hash_password pbkdf2 provided freshSalt)
    else
      VerifyResult.noMatch

/-! Concrete sample inputs used by counterexamples and witnesses. -/

/-- A `screen -list` output hosting the session of instance `alpha` under
screen pid 123. -/
def sampleScreenOutput : String :=
  "There is a screen on:\n\t123.minemanage_alpha\t(Detached)\n1 Socket in /run/screen."

/-- An OS state where screen pid 123 hosts `alpha`'s session but process
123's working directory is another instance's directory. -/
def samplePidEnv : PidEnv :=
  { screenOutput := sampleScreenOutput
    cwdOf := fun p => if p = 123 then some "instances/beta" else none }

/-- A global config whose active instance is `default`. -/
def sampleGlobalCfg : Dict :=
  [("java_path", "java"), ("current_instance", "default"),
   ("admin_password_hash", "")]

/-- A host state where the non-active instance `beta` exists and its
session is live, and the user confirms deletion. -/
def sampleDeleteEnv : InstanceEnv :=
  { current := "default"
    instances := ["default", "beta"]
    alive := fun n => n == "beta"
    confirmYes := true }

/-- A walked instance directory: a jar at top level, the world data, a
`catalogs` directory (not an excluded subtree) and the `logs` subtree. -/
def sampleBackupTree : List (List String × List String) :=
  [([], ["server.jar"]), (["world"], ["level.dat"]),
   (["catalogs"], ["data.txt"]), (["logs"], ["latest.log"])]

/-- A stand-in key-derivation function whose outputs are bytes. -/
def samplePbkdf2 (pw salt : List Nat) (iters : Nat) : List Nat :=
  [(pw.length + salt.length + iters) % 256]

/-- A stand-in digest function. -/
def sampleSha256hex (pw : List Nat) : List Char := hexEncode pw

/-- A liveness trace: alive for queries 0 and 1, down from query 2 on. -/
def sampleAliveTrace (n : Nat) : Bool := decide (n < 2)

/-- A command string holding the control character `\x01`. -/
def sampleCtrlCmd : String := String.mk [Char.ofNat 97, Char.ofNat 1]

/-! Theorems settling the claims. -/

/-- C1 counterexample: the claim says `save_instance_config` writes the
record to a sibling temporary path and atomically renames it over the
target; on the concrete instance-config path its filesystem trace is a
single direct write, not a temp-write-then-rename. -/
theorem C1_counterexample :
    isAtomicReplaceOf "instances/alpha/instance.json"
      (save_instance_config "instances/alpha/instance.json" "serialized") = false := rfl

/-- C1 (amended): `save_global_config` writes the serialized record to the
sibling `.tmp` path and atomically renames it over the target, in a
single non-retried attempt; `save_instance_config`, by contrast, writes
the serialized record directly to the target path, with no temporary
file and no rename. -/
theorem C1_amended_write_protocols (target s : String) :
    isAtomicReplaceOf target (save_global_config target s) = true ∧
    save_instance_config target s = [WriteAction.writeFile target s] := by
  refine ⟨?_, rfl⟩
  simp [isAtomicReplaceOf, save_global_config]

/-- C3 (code_bug evidence): with a resolved pid whose process is still
alive after the grace period, the force-kill fallback of `cmd_kill`
raises `NameError` (the `signal` module is never imported) instead of
sending the termination signal; when the process is already dead the
epilogue completes without sending anything. -/
theorem C3_force_kill_raises_NameError :
    cmd_kill_ensureDead (some 4242) true = KillOutcome.exc "NameError" ∧
    cmd_kill_ensureDead (some 4242) false = KillOutcome.ok [] := ⟨rfl, rfl⟩

/-- C4 counterexample: the claim says delete is rejected whenever the
named instance's session is live; in `sampleDeleteEnv` the non-active
instance `beta` is live, yet the delete branch removes its directory. -/
theorem C4_counterexample :
    sampleDeleteEnv.alive "beta" = true ∧
    run_delete sampleDeleteEnv "beta" = DeleteResult.deleted := by decide

/-- C4 (amended): the delete action of `cmd_instance` is rejected —
removing nothing — exactly when the name is missing, names the currently
active instance, or names a nonexistent instance; liveness of the named
instance's session is never consulted, and an existing non-active
instance is removed upon confirmation even while its session is live. -/
theorem C4_amended_delete_guards (current name : String)
    (instances : List String) (confirmYes : Bool) :
    (cmd_instance_delete current name instances confirmYes =
        DeleteResult.rejectedActive ↔ name ≠ "" ∧ name = current) ∧
    (cmd_instance_delete current name instances confirmYes =
        DeleteResult.rejectedMissing ↔
      name ≠ "" ∧ name ≠ current ∧ instances.contains name = false) ∧
    (cmd_instance_delete current name instances confirmYes =
        DeleteResult.deleted ↔
      name ≠ "" ∧ name ≠ current ∧ instances.contains name = true ∧
        confirmYes = true) := by
  unfold cmd_instance_delete
  split_ifs with h1 h2 h3 <;> simp_all

/-- C6: whenever `cmd_backup` found the instance running (and the world
directory existed), the `save-on` autosave re-enable command is sent, and
sent last, on the success path and on every failure path of the archiving
step alike; it is sent in no other circumstance. -/
theorem C6_saveOn_always_sent (worldExists running : Bool)
    (archiveOutcome : Except String Unit) :
    (BackupEvent.sendCmd "save-on" ∈
        cmd_backup_events worldExists running archiveOutcome ↔
      worldExists = true ∧ running = true) ∧
    ((cmd_backup_events worldExists running archiveOutcome).getLast? =
        some (BackupEvent.sendCmd "save-on") ↔
      worldExists = true ∧ running = true) := by
  cases worldExists <;> cases running <;> cases archiveOutcome <;>
    simp [cmd_backup_events]

/-- C10: `send_command` returns `False` and injects nothing whenever the
command holds a control character (code point below 32, or 127); a
payload is injected only when the server is running and every character
of the command is outside the control range, and that payload is the
command followed by a newline. -/
theorem C10_send_command_sanitization (running : Bool) (cmd : String) :
    ((∃ c ∈ cmd.data, c.toNat < 32 ∨ c.toNat = 127) →
      send_command running cmd = (false, none)) ∧
    (∀ s, (send_command running cmd).2 = some s →
      running = true ∧ (∀ c ∈ cmd.data, 32 ≤ c.toNat ∧ c.toNat ≠ 127) ∧
        s = cmd ++ "\n") := by
  unfold send_command
  cases running
  · simp
  · by_cases h : cmd.data.any
        (fun c => decide (c.toNat < 32) || c.toNat == 127) = true
    · simp [h]
    · rw [Bool.not_eq_true] at h
      simp only [List.any_eq_false, Bool.or_eq_true, decide_eq_true_eq,
        beq_iff_eq, not_or] at h
      constructor
      · rintro ⟨c, hc, hor⟩
        rcases h c hc with ⟨h1, h2⟩
        rcases hor with h3 | h3
        · exact absurd h3 h1
        · exact absurd h3 h2
      · intro s hs
        simp only [Bool.not_true, Bool.false_eq_true, if_false,
          List.any_eq_false] at hs
        refine ⟨rfl, ?_, ?_⟩
        · intro c hc
          rcases h c hc with ⟨h1, h2⟩
          exact ⟨Nat.le_of_not_lt h1, h2⟩
        · have : cmd.data.any
              (fun c => decide (c.toNat < 32) || c.toNat == 127) = false := by
            simp only [List.any_eq_false, Bool.or_eq_true, decide_eq_true_eq,
              beq_iff_eq, not_or]
            exact h
          rw [if_neg (by simp [this])] at hs
          exact (Option.some.injEq _ _).mp hs.symm

/-- C10 witness: a concrete command holding the control character `\x01`
is rejected without injection. -/
theorem C10_send_command_sanitization_witness :
    (∃ c ∈ sampleCtrlCmd.data, c.toNat < 32 ∨ c.toNat = 127) ∧
    send_command true sampleCtrlCmd = (false, none) :=
  ⟨by decide, (C10_send_command_sanitization true sampleCtrlCmd).1 (by decide)⟩

/-- Soundness of the line scan: a pid it yields is the all-digits text
before the first dot of some stripped output line containing the session
name. -/
theorem firstPidIn_sound (sn : List Char) (ls : List (List Char)) (pid : Nat)
    (h : firstPidIn sn ls = some pid) :
    ∃ line ∈ ls, listContainsSub (pyStrip line) sn = true ∧
      ∃ p ps, splitOnChar (Char.ofNat 46) (pyStrip line) = p :: ps ∧
        pyIsDigit p = true ∧ digitsToNat p = pid := by
  induction ls with
  | nil => simp [firstPidIn] at h
  | cons line rest ih =>
    cases hc : listContainsSub (pyStrip line) sn with
    | false =>
      rw [firstPidIn, hc] at h
      simp only [Bool.false_eq_true, if_false] at h
      obtain ⟨l, hl, hr⟩ := ih h
      exact ⟨l, List.mem_cons_of_mem _ hl, hr⟩
    | true =>
      rcases hsp : splitOnChar (Char.ofNat 46) (pyStrip line) with _ | ⟨p, ps⟩
      · rw [firstPidIn, hc, hsp] at h
        simp only [if_true] at h
        obtain ⟨l, hl, hr⟩ := ih h
        exact ⟨l, List.mem_cons_of_mem _ hl, hr⟩
      · cases hd : pyIsDigit p with
        | false =>
          rw [firstPidIn, hc, hsp] at h
          simp [hd] at h
          obtain ⟨l, hl, hr⟩ := ih h
          exact ⟨l, List.mem_cons_of_mem _ hl, hr⟩
        | true =>
          rw [firstPidIn, hc, hsp] at h
          simp [hd] at h
          exact ⟨line, List.mem_cons_self _ _, hc, p, ps, hsp, hd, h⟩

/-- C2 counterexample: the claim says the resolved pid is accepted only
when its process's working directory equals the instance's directory; on
`samplePidEnv`, `get_server_pid` resolves `alpha`'s pid to 123 although
process 123's working directory is another instance's directory — the
resolution never consults working directories. -/
theorem C2_counterexample :
    get_server_pid "alpha" samplePidEnv.screenOutput = some 123 ∧
    samplePidEnv.cwdOf 123 = some "instances/beta" ∧
    "instances/beta" ≠ "instances/alpha" := by decide

/-- C2 (amended): `get_server_pid` derives the pid purely from the
multiplexer's session listing — it returns the all-digits text before the
first dot of the first stripped listing line containing the session name
`minemanage_<instance>`, and performs no working-directory comparison of
any kind. -/
theorem C2_amended_pid_from_session_listing (instanceName screenOutput : String)
    (pid : Nat) (h : get_server_pid instanceName screenOutput = some pid) :
    ∃ line ∈ splitLines screenOutput.data,
      listContainsSub (pyStrip line) (get_screen_name instanceName).data = true ∧
      ∃ p ps, splitOnChar (Char.ofNat 46) (pyStrip line) = p :: ps ∧
        pyIsDigit p = true ∧ digitsToNat p = pid := by
  rw [get_server_pid] at h
  cases hg : strContains screenOutput (get_screen_name instanceName) with
  | false => rw [hg] at h; simp at h
  | true =>
    rw [hg] at h
    simp only [Bool.not_true, Bool.false_eq_true, if_false] at h
    exact firstPidIn_sound _ _ _ h

/-- C2 witness: the amended parse applied to the sample listing. -/
theorem C2_amended_pid_from_session_listing_witness :
    get_server_pid "alpha" sampleScreenOutput = some 123 ∧
    (∃ line ∈ splitLines sampleScreenOutput.data,
      listContainsSub (pyStrip line) (get_screen_name "alpha").data = true ∧
      ∃ p ps, splitOnChar (Char.ofNat 46) (pyStrip line) = p :: ps ∧
        pyIsDigit p = true ∧ digitsToNat p = 123) :=
  ⟨by decide,
   C2_amended_pid_from_session_listing "alpha" sampleScreenOutput 123 (by decide)⟩

/-- Exhausted fuel means every query in the window saw the server alive. -/
theorem stopPollLoop_none (alive : Nat → Bool) (fuel : Nat) :
    ∀ q : Nat, stopPollLoop alive q fuel = none ↔
      ∀ i, q ≤ i → i < q + fuel → alive i = true := by
  induction fuel with
  | zero =>
    intro q
    simp [stopPollLoop]
    intro i h1 h2
    omega
  | succ n ih =>
    intro q
    rw [stopPollLoop]
    cases ha : alive q with
    | false =>
      simp [ha]
      exact ⟨q, Nat.le_refl q, by omega, ha⟩
    | true =>
      simp [ha, ih (q + 1)]
      constructor
      · intro hall i h1 h2
        rcases Nat.eq_or_lt_of_le h1 with rfl | hlt
        · exact ha
        · exact hall i hlt (by omega)
      · intro hall i h1 h2
        exact hall i (by omega) (by omega)

/-- A yielded query index observed the server down, inside the window. -/
theorem stopPollLoop_some (alive : Nat → Bool) (fuel : Nat) :
    ∀ q r : Nat, stopPollLoop alive q fuel = some r →
      alive r = false ∧ q ≤ r ∧ r < q + fuel := by
  induction fuel with
  | zero => intro q r h; simp [stopPollLoop] at h
  | succ n ih =>
    intro q r h
    rw [stopPollLoop] at h
    cases ha : alive q with
    | false =>
      rw [ha] at h
      simp only [Bool.not_false, if_true, Option.some.injEq] at h
      subst h
      exact ⟨ha, Nat.le_refl _, by omega⟩
    | true =>
      rw [ha] at h
      simp only [Bool.not_true, Bool.false_eq_true, if_false] at h
      obtain ⟨h1, h2, h3⟩ := ih (q + 1) r h
      exact ⟨h1, by omega, by omega⟩

/-- C8: on a running instance, `cmd_stop` injects the shutdown line and
takes no other action — in particular it never force-quits the session or
signals the worker; it reports a timeout exactly when all 30 subsequent
liveness polls (one per one-second interval) saw the server alive, and
whenever it reports stopped, the liveness query that observed the server
down lies within the 30-poll bound. -/
theorem C8_stop_bounded_poll (alive : Nat → Bool) (h0 : alive 0 = true) :
    (cmd_stop alive).2 = [StopAction.injectStop] ∧
    ((cmd_stop alive).1 = StopResult.timedOut ↔
      (List.range 30).all (fun i => alive (i + 1)) = true) ∧
    (∀ q, (cmd_stop alive).1 = StopResult.stopped q →
      alive q = false ∧ 1 ≤ q ∧ q ≤ 30) := by
  have hval : cmd_stop alive =
      match stopPollLoop alive 1 30 with
      | some q => (StopResult.stopped q, [StopAction.injectStop])
      | none => (StopResult.timedOut, [StopAction.injectStop]) := by
    rw [cmd_stop, h0]
    simp
  rw [hval]
  cases hl : stopPollLoop alive 1 30 with
  | some r =>
    obtain ⟨h1, h2, h3⟩ := stopPollLoop_some alive 30 1 r hl
    refine ⟨rfl, ⟨?_, ?_⟩, ?_⟩
    · intro habs
      exact absurd habs (by simp)
    · intro hall
      exfalso
      rw [List.all_eq_true] at hall
      have hr : alive (r - 1 + 1) = true :=
        hall (r - 1) (by rw [List.mem_range]; omega)
      have heq : r - 1 + 1 = r := by omega
      rw [heq, h1] at hr
      exact Bool.false_ne_true hr
    · intro q hq
      have hq2 : StopResult.stopped r = StopResult.stopped q := hq
      cases hq2
      exact ⟨h1, h2, by omega⟩
  | none =>
    rw [stopPollLoop_none] at hl
    refine ⟨rfl, ⟨?_, ?_⟩, ?_⟩
    · intro _
      rw [List.all_eq_true]
      intro i hi
      rw [List.mem_range] at hi
      exact hl (i + 1) (by omega) (by omega)
    · intro _
      rfl
    · intro q hq
      exact StopResult.noConfusion hq

/-- C8 witness: the theorem applied to a worker that honors the shutdown
command at the second poll. -/
theorem C8_stop_bounded_poll_witness :
    sampleAliveTrace 0 = true ∧
    ((cmd_stop sampleAliveTrace).2 = [StopAction.injectStop] ∧
     ((cmd_stop sampleAliveTrace).1 = StopResult.timedOut ↔
       (List.range 30).all (fun i => sampleAliveTrace (i + 1)) = true) ∧
     (∀ q, (cmd_stop sampleAliveTrace).1 = StopResult.stopped q →
       sampleAliveTrace q = false ∧ 1 ≤ q ∧ q ≤ 30)) :=
  ⟨by decide, C8_stop_bounded_poll sampleAliveTrace (by decide)⟩

/-- Overwriting a present key replaces its value where it stands. -/
theorem find_map_overwrite (k v : String) (d : Dict)
    (h : List.any d (fun p => p.1 == k) = true) :
    List.find? (fun p => p.1 == k)
      (List.map (fun p => if p.1 == k then (k, v) else p) d) = some (k, v) := by
  induction d with
  | nil => simp at h
  | cons p d ih =>
    cases hp : (p.1 == k) with
    | true =>
      have hd : List.map (fun p => if p.1 == k then (k, v) else p) (p :: d) =
          (k, v) :: List.map (fun p => if p.1 == k then (k, v) else p) d := by
        simp only [List.map_cons]
        rw [if_pos hp]
      rw [hd, List.find?_cons_of_pos _ (by simp)]
    | false =>
      have hd : List.map (fun p => if p.1 == k then (k, v) else p) (p :: d) =
          p :: List.map (fun p => if p.1 == k then (k, v) else p) d := by
        simp only [List.map_cons]
        rw [if_neg (by simp [hp])]
      rw [hd, List.find?_cons_of_neg _ (by simp [hp])]
      apply ih
      simpa [hp] using h

/-- Reading back the key just set yields the value just set. -/
theorem dget_dset_self (d : Dict) (k v : String) :
    dget (dset d k v) k = some v := by
  unfold dset
  by_cases h : List.any d (fun p => p.1 == k) = true
  · rw [if_pos h]
    unfold dget
    rw [find_map_overwrite k v d h]
    rfl
  · rw [if_neg h]
    unfold dget
    rw [List.find?_append]
    have h1 : List.find? (fun p => p.1 == k) d = none := by
      rw [List.find?_eq_none]
      intro x hx hpx
      exact h (List.any_eq_true.mpr ⟨x, hx, hpx⟩)
    rw [h1]
    simp

/-- Peeling one key off the half-extraction. -/
theorem buildHalf_cons (keys : List String) (cfg : Dict) (k2 : String) :
    buildHalf (k2 :: keys) cfg =
      match dget cfg k2 with
      | some v => (k2, v) :: buildHalf keys cfg
      | none => buildHalf keys cfg := rfl

/-- Looking up the key at the head of a dict. -/
theorem dget_cons_self (l : Dict) (k v : String) :
    dget ((k, v) :: l) k = some v := by
  unfold dget
  rw [List.find?_cons_of_pos _ (by simp)]
  rfl

/-- Looking past a head entry with a different key. -/
theorem dget_cons_ne (l : Dict) (k k2 v : String) (h : k2 ≠ k) :
    dget ((k2, v) :: l) k = dget l k := by
  unfold dget
  rw [List.find?_cons_of_neg _ (by simp [h])]

/-- Reading a key from a half-extraction reads it from the source dict,
provided the key is listed. -/
theorem dget_buildHalf (cfg : Dict) (k : String) :
    ∀ keys : List String,
      dget (buildHalf keys cfg) k =
        if keys.contains k then dget cfg k else none := by
  intro keys
  induction keys with
  | nil => simp [buildHalf, dget]
  | cons k2 rest ih =>
    cases h2 : dget cfg k2 with
    | none =>
      have hstep : buildHalf (k2 :: rest) cfg = buildHalf rest cfg := by
        rw [buildHalf_cons, h2]
      rw [hstep, ih]
      by_cases hk : k2 = k
      · subst hk
        cases hc : rest.contains k2 <;> simp [List.contains_cons, hc, h2]
      · simp [List.contains_cons, Ne.symm hk]
    | some v =>
      have hstep : buildHalf (k2 :: rest) cfg =
          (k2, v) :: buildHalf rest cfg := by
        rw [buildHalf_cons, h2]
      rw [hstep]
      by_cases hk : k2 = k
      · subst hk
        rw [dget_cons_self]
        simp [List.contains_cons, h2]
      · rw [dget_cons_ne _ _ _ _ hk, ih]
        simp [List.contains_cons, Ne.symm hk]

/-- A list is an initial segment of itself extended on the right. -/
theorem leadsWith_append (b c : List Char) : leadsWith b (b ++ c) = true := by
  induction b with
  | nil => rfl
  | cons x xs ih => simp [leadsWith, ih]

/-- A list occurs as a contiguous sublist at the start of its own
right-extension. -/
theorem listContainsSub_here (b c : List Char) :
    listContainsSub (b ++ c) b = true := by
  cases b with
  | nil => cases c <;> simp [listContainsSub, leadsWith]
  | cons x xs =>
    rw [List.cons_append]
    simp [listContainsSub, leadsWith, leadsWith_append]

/-- Occurrence as a contiguous sublist survives prepending. -/
theorem listContainsSub_append_left (a c n : List Char)
    (h : listContainsSub c n = true) : listContainsSub (a ++ c) n = true := by
  induction a with
  | nil => simpa
  | cons x xs ih =>
    rw [List.cons_append]
    simp only [listContainsSub]
    rw [ih]
    simp

/-- Every component of a joined path occurs in it as a substring. -/
theorem strContains_joinPath (parts : List String) (c : String)
    (hc : c ∈ parts) : strContains (joinPath parts) c = true := by
  induction parts with
  | nil => cases hc
  | cons p ps ih =>
    cases ps with
    | nil =>
      rcases List.mem_singleton.mp hc with rfl
      unfold strContains
      have h0 := listContainsSub_here c.data []
      rw [List.append_nil] at h0
      simpa [joinPath] using h0
    | cons q rest =>
      rcases List.mem_cons.mp hc with rfl | hmem
      · unfold strContains joinPath
        have hd : (c ++ "/" ++ joinPath (q :: rest)).data =
            c.data ++ ("/".data ++ (joinPath (q :: rest)).data) := by
          simp [String.data_append, List.append_assoc]
        rw [hd]
        exact listContainsSub_here _ _
      · have hin := ih hmem
        unfold strContains at hin ⊢
        unfold joinPath
        have hd : (p ++ "/" ++ joinPath (q :: rest)).data =
            (p.data ++ "/".data) ++ (joinPath (q :: rest)).data := by
          simp [String.data_append, List.append_assoc]
        rw [hd]
        exact listContainsSub_append_left _ _ _ hin

/-- C7 counterexample: the claim says every file outside the excluded
subtrees is included in the archive; in `sampleBackupTree` the file
`catalogs/data.txt` lies under no excluded subtree, yet the archiving
loop omits it — the substring test `"logs" in root` matches the directory
name `catalogs`. -/
theorem C7_counterexample :
    underExcludedSubtree ["catalogs"] = false ∧
    (["catalogs"], ["data.txt"]) ∈ sampleBackupTree ∧
    "catalogs/data.txt" ∉
      cmd_backup_archiveNames "instances/alpha" sampleBackupTree := by decide

/-- C7 (amended): the archive holds exactly the files of the walked
directories whose full root path does not contain any of the substrings
`backups`, `logs`, `cache`, `libraries`, `versions`, each stored under
its path relative to the working directory.  This substring test
over-approximates subtree exclusion: every directory lying under an
excluded subtree is skipped, but a directory outside them whose path
merely contains one of the names as a substring is skipped as well. -/
theorem C7_amended_archive_membership (serverDir : String)
    (tree : List (List String × List String)) :
    (∀ e ∈ tree, ∀ f ∈ e.2,
      backupRootSkipped (joinPath (serverDir :: e.1)) = false →
        joinPath (e.1 ++ [f]) ∈ cmd_backup_archiveNames serverDir tree) ∧
    (∀ e ∈ tree, underExcludedSubtree e.1 = true →
      backupRootSkipped (joinPath (serverDir :: e.1)) = true) ∧
    (∀ x ∈ cmd_backup_archiveNames serverDir tree, ∃ e ∈ tree, ∃ f ∈ e.2,
      x = joinPath (e.1 ++ [f]) ∧
      backupRootSkipped (joinPath (serverDir :: e.1)) = false) := by
  refine ⟨?_, ?_, ?_⟩
  · intro e he f hf hskip
    rw [cmd_backup_archiveNames, List.mem_flatMap]
    refine ⟨e, ?_, ?_⟩
    · rw [List.mem_filter]
      exact ⟨he, by simp [hskip]⟩
    · rw [List.mem_map]
      exact ⟨f, hf, rfl⟩
  · intro e he hex
    obtain ⟨c0, hc0mem, hc0⟩ := List.any_eq_true.mp hex
    apply List.any_eq_true.mpr
    refine ⟨c0, List.elem_iff.mp hc0, ?_⟩
    exact strContains_joinPath _ _ (List.mem_cons_of_mem _ hc0mem)
  · intro x hx
    rw [cmd_backup_archiveNames, List.mem_flatMap] at hx
    obtain ⟨e, hef, hxe⟩ := hx
    rw [List.mem_filter] at hef
    obtain ⟨he, hpred⟩ := hef
    rw [List.mem_map] at hxe
    obtain ⟨f, hf, rfl⟩ := hxe
    exact ⟨e, he, f, hf, rfl, by simpa using hpred⟩

/-- C7 witness: the amended membership applied to the sample tree, at the
world file. -/
theorem C7_amended_archive_membership_witness :
    (["world"], ["level.dat"]) ∈ sampleBackupTree ∧
    "level.dat" ∈ (["world"], ["level.dat"]).2 ∧
    backupRootSkipped (joinPath ("instances/alpha" :: ["world"])) = false ∧
    joinPath (["world"] ++ ["level.dat"]) ∈
      cmd_backup_archiveNames "instances/alpha" sampleBackupTree :=
  ⟨by decide, by decide, by decide,
   (C7_amended_archive_membership "instances/alpha" sampleBackupTree).1
     (["world"], ["level.dat"]) (by decide) "level.dat" (by decide) (by decide)⟩

/-- C5 counterexample: the claim says a successful create leaves the
active-instance field unchanged; starting from a global config whose
active instance is `default`, creating `alpha` persists a global config
whose `current_instance` is `alpha`. -/
theorem C5_counterexample :
    dget sampleGlobalCfg "current_instance" = some "default" ∧
    dget (cmd_instance_create_savedGlobal sampleGlobalCfg "alpha" "1.20.2" "paper")
        "current_instance" = some "alpha" := by decide

/-- C5 (amended): a successful create always sets GlobalConfig's
active-instance field to the newly created instance's name — the
auto-init step of create runs `cmd_init`, which marks its target
instance as current — even though the success message still points the
user at a separate explicit select step. -/
theorem C5_amended_create_sets_current (globalCfg : Dict)
    (name version serverType : String) :
    dget (cmd_instance_create_savedGlobal globalCfg name version serverType)
        "current_instance" = some name := by
  unfold cmd_instance_create_savedGlobal cmd_init_savedGlobal save_config_globalHalf
  rw [dget_buildHalf]
  have hc : GLOBAL_CONFIG_KEYS.contains "current_instance" = true := by decide
  rw [hc, if_pos rfl]
  exact dget_dset_self _ _ _

/-- Hex digits of values below 16 decode back to themselves. -/
theorem hexVal_hexDigit : ∀ n, n < 16 → hexVal (hexDigit n) = n := by decide

/-- No hex digit of a value below 16 is the separator `$`. -/
theorem hexDigit_ne_dollar : ∀ n, n < 16 → hexDigit n ≠ Char.ofNat 36 := by decide

/-- The hex encoding of a byte string never holds the separator `$`. -/
theorem dollar_not_mem_hexEncode (bs : List Nat) (h : ∀ b ∈ bs, b < 256) :
    Char.ofNat 36 ∉ hexEncode bs := by
  induction bs with
  | nil => simp [hexEncode]
  | cons b bs ih =>
    have hb : b < 256 := h b (List.mem_cons_self _ _)
    rw [hexEncode]
    intro hmem
    rcases List.mem_cons.mp hmem with heq | hmem2
    · exact hexDigit_ne_dollar (b / 16) (by omega) heq.symm
    rcases List.mem_cons.mp hmem2 with heq | hmem3
    · exact hexDigit_ne_dollar (b % 16) (by omega) heq.symm
    · exact ih (fun x hx => h x (List.mem_cons_of_mem _ hx)) hmem3

/-- Decoding inverts encoding on byte strings. -/
theorem hexDecode_hexEncode (bs : List Nat) (h : ∀ b ∈ bs, b < 256) :
    hexDecode (hexEncode bs) = bs := by
  induction bs with
  | nil => rfl
  | cons b bs ih =>
    have hb : b < 256 := h b (List.mem_cons_self _ _)
    rw [hexEncode, hexDecode]
    rw [hexVal_hexDigit (b / 16) (by omega), hexVal_hexDigit (b % 16) (by omega)]
    rw [ih (fun x hx => h x (List.mem_cons_of_mem _ hx))]
    have : b / 16 * 16 + b % 16 = b := by omega
    rw [this]

/-- Splitting a list free of the separator yields that list alone. -/
theorem splitOnChar_not_mem (c : Char) (l : List Char) (h : c ∉ l) :
    splitOnChar c l = [l] := by
  induction l with
  | nil => rfl
  | cons x xs ih =>
    have hx : (x == c) = false := by
      simp only [beq_eq_false_iff_ne, ne_eq]
      intro heq
      exact h (heq ▸ List.mem_cons_self _ _)
    have ih2 := ih (fun hmem => h (List.mem_cons_of_mem _ hmem))
    simp [splitOnChar, hx, ih2]

/-- Splitting at the first separator occurrence detaches the clean head
segment. -/
theorem splitOnChar_sep (c : Char) (l1 l2 : List Char) (h : c ∉ l1) :
    splitOnChar c (l1 ++ c :: l2) = l1 :: splitOnChar c l2 := by
  induction l1 with
  | nil => simp [splitOnChar]
  | cons x xs ih =>
    have hx : (x == c) = false := by
      simp only [beq_eq_false_iff_ne, ne_eq]
      intro heq
      exact h (heq ▸ List.mem_cons_self _ _)
    have ih2 := ih (fun hmem => h (List.mem_cons_of_mem _ hmem))
    simp [splitOnChar, hx, ih2]

/-- C9: verifying a freshly produced `hash_password` record with the same
password reports a match — the record is `salt_hex$hash_hex`, and the
modern branch of `verify_password` recomputes the PBKDF2 hash from the
stored salt and compares; and a legacy stored value (no `$`) matching the
provided password's SHA-256 digest yields the upgrade result carrying a
modern-format hash of that same password.  `hs` and `hout` state that the
salt and the derived key are byte strings, as `os.urandom` and
`pbkdf2_hmac` guarantee. -/
theorem C9_verify_roundtrip
    (pbkdf2 : List Nat → List Nat → Nat → List Nat)
    (sha256hex : List Nat → List Char)
    (freshSalt p s : List Nat) (stored : List Char)
    (hs : ∀ b ∈ s, b < 256)
    (hout : ∀ b ∈ pbkdf2 p s 100000, b < 256) :
    verify_password pbkdf2 sha256hex freshSalt (hash_password pbkdf2 p s) p =
      VerifyResult.matched ∧
    (Char.ofNat 36 ∉ stored → sha256hex p = stored →
      verify_password pbkdf2 sha256hex freshSalt stored p =
        VerifyResult.matchedUpgrade (hash_password pbkdf2 p freshSalt)) := by
  constructor
  · rw [verify_password, hash_password]
    have hcond : (hexEncode s ++
        Char.ofNat 36 :: hexEncode (pbkdf2 p s 100000)).contains
          (Char.ofNat 36) = true := by simp
    rw [hcond]
    rw [splitOnChar_sep _ _ _ (dollar_not_mem_hexEncode s hs),
      splitOnChar_not_mem _ _ (dollar_not_mem_hexEncode _ hout)]
    simp [hexDecode_hexEncode s hs]
  · intro hnm hsh
    rw [verify_password]
    have hcond : stored.contains (Char.ofNat 36) = false := by simp [hnm]
    rw [hcond]
    simp [hsh]

/-- C9 witness: the round trip and the legacy upgrade at concrete byte
strings and concrete stand-ins for the hash primitives. -/
theorem C9_verify_roundtrip_witness :
    (∀ b ∈ ([0, 255] : List Nat), b < 256) ∧
    (∀ b ∈ samplePbkdf2 [1, 2] [0, 255] 100000, b < 256) ∧
    (verify_password samplePbkdf2 sampleSha256hex [3, 4]
        (hash_password samplePbkdf2 [1, 2] [0, 255]) [1, 2] =
      VerifyResult.matched ∧
    (Char.ofNat 36 ∉ sampleSha256hex [1, 2] →
      sampleSha256hex [1, 2] = sampleSha256hex [1, 2] →
      verify_password samplePbkdf2 sampleSha256hex [3, 4]
          (sampleSha256hex [1, 2]) [1, 2] =
        VerifyResult.matchedUpgrade (hash_password samplePbkdf2 [1, 2] [3, 4]))) :=
  ⟨by decide, by decide,
   C9_verify_roundtrip samplePbkdf2 sampleSha256hex [3, 4] [1, 2] [0, 255]
     (sampleSha256hex [1, 2]) (by decide) (by decide)⟩

end MineManage
